import Mathlib

/-!
Verification development for the daily-diet meals service
(`src/@types/knex.d.ts` table schema together with `mealsRoutes`:
list, get-one, metrics, create, update, delete handlers).

Modelling conventions of the shallow embedding:
* Identifiers (meal `id`, `user_id` token) are `Nat`; `randomUUID` is
  modelled as a fresh-counter supply threaded through the handlers, so
  consecutive calls yield distinct values.
* `Date` values are modelled as timestamps counted in days since the
  Unix epoch (midnight UTC); the zod `z.coerce.date()` coercion is
  modelled by `parseDate`, which fails on inputs that do not denote a
  timestamp (mirroring an invalid `Date`). The handlers store
  `String(dateTime)`, i.e. the JS `Date.prototype.toString` text
  (weekday and month names first, as in `Thu Jun 15 2023 00:00:00
  GMT+0000 (Coordinated Universal Time)`); `dateTimeText` reproduces
  that rendering, and the `date_time` column holds the text.
* The knex record store is a `List Meal`; `.where` filters, `.orderBy
  (date_time, desc)` sorts the stored text descending under the BINARY
  (byte-wise lexicographic) collation, `.first()` takes the head,
  `.insert` appends, `.update` maps over matching rows (knex omits
  `undefined` values from the generated `update`, so absent fields keep
  their prior value, and throws `Empty .update() call detected!` when
  every value is `undefined`), `.del()` removes matching rows.
* Request bodies before zod parsing are `Raw...Body` records whose
  fields are `Option`s (`none` = field absent from the JSON body).
* Each mutating handler returns its HTTP outcome together with the
  post-state of the store, so the failure paths visibly leave the store
  unchanged, exactly as a thrown error before the knex call does.
-/

/-- One row of the `meals` table, from the schema in `knex.d.ts`:
`id, user_id, name, description, date_time, on_diet, created_at`.
`description` is nullable (the insert may omit it). -/
structure Meal where
  id : Nat
  user_id : Nat
  name : String
  description : Option String
  date_time : String
  on_diet : Bool
  created_at : Nat
deriving Repr, DecidableEq

/-- The record store backing the `meals` table. -/
abbrev Store := List Meal

/-- Error taxonomy of the routes: 401, 400 (zod parse failure), the
`Not Found` error thrown by the update and delete handlers, and an
error raised by the store layer itself (e.g. knex rejecting an empty
update object). -/
inductive Err where
  | unauthorized
  | validationError
  | notFound
  | storeFailure
deriving Repr, DecidableEq

/-- Model of `z.coerce.date()` on a raw field value: a string denoting
a timestamp (here: a non-empty digit string, read as days since the
epoch) coerces to that timestamp, anything else is an invalid date and
fails. -/
def parseDate (s : String) : Option Nat :=
  if s.data ≠ [] ∧ s.data.all Char.isDigit then
    some (s.data.foldl (fun n c => n * 10 + (c.toNat - 48)) 0)
  else none

/-- Weekday abbreviation of an epoch-day timestamp (day 0, 1970-01-01,
was a Thursday). -/
def weekdayName (z : Nat) : String :=
  (["Thu", "Fri", "Sat", "Sun", "Mon", "Tue", "Wed"].getD (z % 7) "Thu")

/-- Month abbreviation, 1-based. -/
def monthName (m : Nat) : String :=
  (["Jan", "Feb", "Mar", "Apr", "May", "Jun", "Jul", "Aug", "Sep", "Oct",
    "Nov", "Dec"].getD (m - 1) "Jan")

/-- Two-digit zero-padded decimal rendering. -/
def pad2 (n : Nat) : String :=
  if n < 10 then "0" ++ toString n else toString n

/-- Gregorian (year, month, day) of an epoch-day timestamp (standard
era-based civil-from-days computation). -/
def civilFromDays (z0 : Nat) : Nat × Nat × Nat :=
  let z := z0 + 719468
  let era := z / 146097
  let doe := z % 146097
  let yoe := (doe - doe / 1460 + doe / 36524 - doe / 146096) / 365
  let y := yoe + era * 400
  let doy := doe - (365 * yoe + yoe / 4 - yoe / 100)
  let mp := (5 * doy + 2) / 153
  let d := doy - (153 * mp + 2) / 5 + 1
  let m := if mp < 10 then mp + 3 else mp - 9
  (if m ≤ 2 then y + 1 else y, m, d)

/-- Model of the JS `String(dateTime)` the handlers persist:
`Date.prototype.toString` prints weekday and month names first, e.g.
`Thu Jun 15 2023 00:00:00 GMT+0000 (Coordinated Universal Time)`;
rendered here for midnight-UTC dates. -/
def dateTimeText (z : Nat) : String :=
  let c := civilFromDays z
  weekdayName z ++ " " ++ monthName c.2.1 ++ " " ++ pad2 c.2.2 ++ " " ++
    toString c.1 ++ " 00:00:00 GMT+0000 (Coordinated Universal Time)"

/-- Byte-wise lexicographic strict order on character lists, as the
BINARY collation compares stored text. -/
def strLtb : List Char → List Char → Bool
  | [], [] => false
  | [], _ :: _ => true
  | _ :: _, [] => false
  | a :: as, b :: bs =>
    if a.val < b.val then true
    else if b.val < a.val then false
    else strLtb as bs

/-- Byte-wise lexicographic (non-strict) order on stored text. -/
def textLe (a b : String) : Bool :=
  strLtb a.data b.data || a.data == b.data

/-- Row order produced by `.orderBy (date_time, desc)`: a row precedes
another when its stored `date_time` text is at least as large in the
collation order. -/
def dateDesc (a b : Meal) : Prop :=
  textLe b.date_time a.date_time = true

instance : DecidableRel dateDesc :=
  fun a b => instDecidableEqBool (textLe b.date_time a.date_time) true

/-- The query shared by the GET `/` and GET `/metrics` handlers:
`knex (meals) .select () .where (user_id) .orderBy (date_time, desc)`. -/
def mealsQuery (s : Store) (uid : Nat) : List Meal :=
  List.insertionSort dateDesc (s.filter fun m => m.user_id == uid)

/-- GET `/` handler body: returns the caller's meals, most recent first. -/
def listMeals (s : Store) (uid : Nat) : List Meal :=
  mealsQuery s uid

/-- GET `/:id` handler body: `.where (id, user_id) .first ()`. -/
def getMeal (s : Store) (uid id : Nat) : Option Meal :=
  (s.filter fun m => m.id == id && m.user_id == uid).head?

/-- One step of the metrics streak scan, from the `forEach` in the
metrics handler: `on_diet` increments `bestSequenceSoFar`, otherwise it
resets to zero; `bestSequence` is raised whenever exceeded. State is
`(bestSequence, bestSequenceSoFar)`. -/
def streakStep (st : Nat × Nat) (onDiet : Bool) : Nat × Nat :=
  let cur := if onDiet then st.2 + 1 else 0
  (if cur > st.1 then cur else st.1, cur)

/-- The streak scan of the metrics handler, on the list of `on_diet`
flags in list order: final value of `bestSequence`, starting from zero. -/
def bestSequence (l : List Bool) : Nat :=
  (l.foldl streakStep (0, 0)).1

/-- `meals.reduce` counting rows with `on_diet` true. -/
def onDietCount (meals : List Meal) : Nat :=
  meals.foldl (fun total m => if m.on_diet then total + 1 else total) 0

/-- `meals.reduce` counting rows with `on_diet` false. -/
def offDietCount (meals : List Meal) : Nat :=
  meals.foldl (fun total m => if !m.on_diet then total + 1 else total) 0

/-- The metrics payload returned by GET `/metrics`. -/
structure Metrics where
  recorded_meals : Nat
  on_diet_meals : Nat
  off_diet_meals : Nat
  best_sequence : Nat
deriving Repr, DecidableEq

/-- Body of the GET `/metrics` handler after the query: the two
`reduce` counters plus the `forEach` streak scan over the ordered rows. -/
def computeMetrics (meals : List Meal) : Metrics :=
  { recorded_meals := meals.length
    on_diet_meals := onDietCount meals
    off_diet_meals := offDietCount meals
    best_sequence := (meals.foldl (fun st m => streakStep st m.on_diet) (0, 0)).1 }

/-- GET `/metrics` handler: same query as GET `/`, then the scan. -/
def metricsHandler (s : Store) (uid : Nat) : Metrics :=
  computeMetrics (mealsQuery s uid)

/-- Raw POST `/` body before zod parsing; `none` marks an absent field. -/
structure RawCreateBody where
  name : Option String
  description : Option String
  dateTime : Option String
  onDiet : Option Bool
deriving Repr, DecidableEq

/-- Result of `createMealBodySchema.parse`: `name`, `dateTime`, `onDiet`
required, `description` optional, `dateTime` coerced to a date. -/
structure CreateBody where
  name : String
  description : Option String
  dateTime : Nat
  onDiet : Bool
deriving Repr, DecidableEq

/-- `createMealBodySchema.parse`: fails (`400`) when a required field is
absent or the `dateTime` coercion fails. `z.string ()` accepts any
string for `name`, the empty string included. -/
def parseCreateBody (raw : RawCreateBody) : Except Err CreateBody :=
  match raw.name, raw.dateTime, raw.onDiet with
  | some n, some d, some od =>
    match parseDate d with
    | some t => .ok { name := n, description := raw.description, dateTime := t, onDiet := od }
    | none => .error .validationError
  | _, _, _ => .error .validationError

/-- Everything the POST `/` handler produces: the HTTP outcome, the
post-state of the store, the `reply.cookie` call if one was made
(token and `maxAge`), and the state of the uuid supply afterwards. -/
structure CreateResult where
  response : Except Err Unit
  store : Store
  setCookie : Option (Nat × Nat)
  nextUuid : Nat
deriving Repr

/-- The `maxAge` passed to `reply.cookie`: the literal
`1000 * 60 * 60 * 24 * 7` (604800000) commented `7 days` in the source.
`@fastify/cookie` hands `maxAge` to `cookie.serialize`, which counts it
in seconds, so this sets a cookie of 604800000 s, about 19.2 years —
not the 7 days (604800 s) the source comment intends. -/
def cookieMaxAge : Nat :=
  1000 * 60 * 60 * 24 * 7

/-- Seven days expressed in the unit `@fastify/cookie` actually uses
for `maxAge` (seconds). -/
def sevenDaysInSeconds : Nat :=
  60 * 60 * 24 * 7

/-- POST `/` handler. Parse the body first; then, if the request carries
no `userId` cookie, mint a fresh token and send it back with a 7-day
`maxAge`; finally insert the row (fresh `id`, owner = effective token).
`ctr` is the uuid supply, `now` the server clock assigning `created_at`. -/
def createMeal (s : Store) (cookieUserId : Option Nat) (ctr now : Nat)
    (raw : RawCreateBody) : CreateResult :=
  match parseCreateBody raw with
  | .error e => { response := .error e, store := s, setCookie := none, nextUuid := ctr }
  | .ok b =>
    match cookieUserId with
    | some u =>
      { response := .ok ()
        store := s ++ [{ id := ctr, user_id := u, name := b.name,
                         description := b.description,
                         date_time := dateTimeText b.dateTime,
                         on_diet := b.onDiet, created_at := now }]
        setCookie := none
        nextUuid := ctr + 1 }
    | none =>
      { response := .ok ()
        store := s ++ [{ id := ctr + 1, user_id := ctr, name := b.name,
                         description := b.description,
                         date_time := dateTimeText b.dateTime,
                         on_diet := b.onDiet, created_at := now }]
        setCookie := some (ctr, cookieMaxAge)
        nextUuid := ctr + 2 }

/-- Raw PUT `/:id` body before zod parsing; every field optional. -/
structure RawUpdateBody where
  name : Option String
  description : Option String
  dateTime : Option String
  onDiet : Option Bool
deriving Repr, DecidableEq

/-- Result of `updateMealBodySchema.parse`: every field optional,
`dateTime` coerced to a date when present. -/
structure UpdateBody where
  name : Option String
  description : Option String
  dateTime : Option Nat
  onDiet : Option Bool
deriving Repr, DecidableEq

/-- `updateMealBodySchema.parse`: only a present-but-uncoercible
`dateTime` can fail; absent fields parse to `none`. -/
def parseUpdateBody (raw : RawUpdateBody) : Except Err UpdateBody :=
  match raw.dateTime with
  | none => .ok { name := raw.name, description := raw.description,
                  dateTime := none, onDiet := raw.onDiet }
  | some d =>
    match parseDate d with
    | some t => .ok { name := raw.name, description := raw.description,
                      dateTime := some t, onDiet := raw.onDiet }
    | none => .error .validationError

/-- Effect of the knex `.update` object on one matching row: knex drops
`undefined` values from the generated statement, so a `none` field keeps
the row's prior value; a present `dateTime` is stored as its
`String(dateTime)` text; `id`, `user_id`, `created_at` are not in the
update object at all. -/
def applyUpdate (m : Meal) (b : UpdateBody) : Meal :=
  { m with
    name := b.name.getD m.name
    description := match b.description with
      | some d => some d
      | none => m.description
    date_time := match b.dateTime with
      | some t => dateTimeText t
      | none => m.date_time
    on_diet := b.onDiet.getD m.on_diet }

/-- The pre-check read shared by the PUT and DELETE handlers:
`.where (user_id, id) .first ()`. -/
def findMeal (s : Store) (uid id : Nat) : Option Meal :=
  (s.filter fun m => m.user_id == uid && m.id == id).head?

/-- PUT `/:id` handler: pre-check read, `throw (Not Found)` when it
misses, then body parse, then `.where (id, user_id) .update (...)`.
When every value in the update object is `undefined` (all four body
fields absent), knex strips them all and throws
`Empty .update() call detected!`, so the request errors with the store
untouched. Returns the HTTP outcome and the post-state of the store. -/
def updateMeal (s : Store) (uid id : Nat) (raw : RawUpdateBody) :
    Except Err Unit × Store :=
  match findMeal s uid id with
  | none => (.error .notFound, s)
  | some _ =>
    match parseUpdateBody raw with
    | .error e => (.error e, s)
    | .ok b =>
      if b.name = none ∧ b.description = none ∧ b.dateTime = none ∧
          b.onDiet = none then
        (.error .storeFailure, s)
      else
        (.ok (), s.map fun m =>
          if m.id == id && m.user_id == uid then applyUpdate m b else m)

/-- DELETE `/:id` handler: same pre-check read, then
`.where (id, user_id) .del ()`. -/
def deleteMeal (s : Store) (uid id : Nat) : Except Err Unit × Store :=
  match findMeal s uid id with
  | none => (.error .notFound, s)
  | some _ =>
    (.ok (), s.filter fun m => !(m.id == id && m.user_id == uid))

/-- One request issued by a caller holding an identity token. -/
inductive Op where
  | create (now : Nat) (raw : RawCreateBody)
  | update (id : Nat) (raw : RawUpdateBody)
  | delete (id : Nat)
  | getOne (id : Nat)
  | list
  | metrics
deriving Repr

/-- Store plus uuid supply, the state threaded through a request
sequence. -/
structure SysState where
  store : Store
  ctr : Nat
deriving Repr

/-- State transition of one request issued with the token `uid` (the
read-only routes leave the state unchanged). -/
def applyOp (uid : Nat) (st : SysState) : Op → SysState
  | .create now raw =>
    let r := createMeal st.store (some uid) st.ctr now raw
    { store := r.store, ctr := r.nextUuid }
  | .update id raw => { store := (updateMeal st.store uid id raw).2, ctr := st.ctr }
  | .delete id => { store := (deleteMeal st.store uid id).2, ctr := st.ctr }
  | .getOne _ => st
  | .list => st
  | .metrics => st

/-- State after a sequence of requests, all issued with the token `uid`. -/
def applyOps (uid : Nat) (st : SysState) (ops : List Op) : SysState :=
  ops.foldl (applyOp uid) st

/-- Specification-side count of the leading run of `true`s of a flag
list. -/
def leadRun : List Bool → Nat
  | [] => 0
  | true :: l => leadRun l + 1
  | false :: _ => 0

/-- Specification-side reading of `best_sequence`, straight from the
spec's words: the length of the longest run of consecutive `true` flags,
i.e. the maximum over all suffixes of the leading-`true` run. -/
def longestTrueRun : List Bool → Nat
  | [] => 0
  | b :: l => max (leadRun (b :: l)) (longestTrueRun l)

/-- The suffix that remains after the leading run of `true`s. -/
def afterLead : List Bool → List Bool
  | [] => []
  | true :: l => afterLead l
  | false :: l => false :: l

/-- Closed form of the streak scan resumed with a carried-in running
counter `c`: used to relate the fold to `longestTrueRun`. -/
def streakAux (c : Nat) : List Bool → Nat
  | [] => c
  | true :: l => streakAux (c + 1) l
  | false :: l => max c (streakAux 0 l)

/-- Fixture: a meal owned by token 7, eaten on Thursday 2023-06-15
(epoch day 19523). -/
def mealA : Meal :=
  { id := 1, user_id := 7, name := "rice", description := some "lunch",
    date_time := dateTimeText 19523, on_diet := true, created_at := 9 }

/-- Fixture: a meal owned by token 8. -/
def mealB : Meal :=
  { id := 2, user_id := 8, name := "cake", description := none,
    date_time := dateTimeText 19524, on_diet := false, created_at := 9 }

/-- Fixture: a meal owned by token 7, eaten on Monday 2024-01-01
(epoch day 19723), later than `mealA`. -/
def mealJan2024 : Meal :=
  { id := 3, user_id := 7, name := "toast", description := none,
    date_time := dateTimeText 19723, on_diet := true, created_at := 9 }

/-- Fixture: update body carrying only `onDiet = false`. -/
def rawOnDietOnly : RawUpdateBody :=
  { name := none, description := none, dateTime := none, onDiet := some false }

/-- Fixture: the empty update body (every field absent). -/
def rawEmptyBody : RawUpdateBody :=
  { name := none, description := none, dateTime := none, onDiet := none }

/-- Fixture: update body whose `dateTime` does not coerce to a date. -/
def rawBadDate : RawUpdateBody :=
  { name := none, description := none, dateTime := some "never", onDiet := none }

/-- Fixture: a valid create body. -/
def rawCreateOk : RawCreateBody :=
  { name := some "rice", description := none, dateTime := some "5",
    onDiet := some true }

/-- Fixture: a create body whose `name` is the empty string. -/
def rawCreateEmptyName : RawCreateBody :=
  { name := some "", description := none, dateTime := some "5",
    onDiet := some true }

/-- Fixture: a create body with `name` absent. -/
def rawCreateNoName : RawCreateBody :=
  { name := none, description := none, dateTime := some "5",
    onDiet := some true }

theorem le_streakAux (l : List Bool) : ∀ c : Nat, c ≤ streakAux c l := by
  induction l with
  | nil => intro c; simp [streakAux]
  | cons b l ih =>
    intro c
    cases b with
    | false => simp [streakAux]
    | true => exact Nat.le_trans (Nat.le_succ c) (ih (c + 1))

theorem streakStep_true (st : Nat × Nat) :
    streakStep st true = (max st.1 (st.2 + 1), st.2 + 1) := by
  simp only [streakStep, Prod.mk.injEq, if_true]
  constructor
  · split <;> omega
  · trivial

theorem streakStep_false (st : Nat × Nat) : streakStep st false = (st.1, 0) := by
  simp [streakStep]

theorem foldl_streakStep (l : List Bool) : ∀ best cur : Nat, cur ≤ best →
    (l.foldl streakStep (best, cur)).1 = max best (streakAux cur l) := by
  induction l with
  | nil => intro best cur h; simp [streakAux]; omega
  | cons b l ih =>
    intro best cur h
    cases b with
    | true =>
      have hle : cur + 1 ≤ streakAux (cur + 1) l := le_streakAux l (cur + 1)
      simp only [List.foldl_cons, streakStep_true, streakAux]
      rw [ih (max best (cur + 1)) (cur + 1) (Nat.le_max_right _ _)]
      omega
    | false =>
      simp only [List.foldl_cons, streakStep_false, streakAux]
      rw [ih best 0 (Nat.zero_le best)]
      omega

theorem longestTrueRun_decomp (l : List Bool) :
    longestTrueRun l = max (leadRun l) (longestTrueRun (afterLead l)) := by
  induction l with
  | nil => simp [longestTrueRun, leadRun, afterLead]
  | cons b l ih =>
    cases b with
    | false => simp [longestTrueRun, leadRun, afterLead]
    | true =>
      simp only [longestTrueRun, leadRun, afterLead]
      rw [ih]
      omega

theorem streakAux_eq (l : List Bool) : ∀ c : Nat,
    streakAux c l = max (c + leadRun l) (longestTrueRun (afterLead l)) := by
  induction l with
  | nil => intro c; simp [streakAux, leadRun, afterLead, longestTrueRun]
  | cons b l ih =>
    intro c
    cases b with
    | true =>
      simp only [streakAux, leadRun, afterLead]
      rw [ih (c + 1)]
      omega
    | false =>
      simp only [streakAux, leadRun, afterLead, longestTrueRun]
      rw [ih 0, longestTrueRun_decomp l]
      omega

theorem bestSequence_eq_longestTrueRun (l : List Bool) :
    bestSequence l = longestTrueRun l := by
  unfold bestSequence
  rw [foldl_streakStep l 0 0 (Nat.le_refl 0), streakAux_eq l 0,
    longestTrueRun_decomp l]
  omega

theorem leadRun_le_length (l : List Bool) : leadRun l ≤ l.length := by
  induction l with
  | nil => simp [leadRun]
  | cons b l ih => cases b <;> simp [leadRun] <;> omega

theorem longestTrueRun_le_length (l : List Bool) :
    longestTrueRun l ≤ l.length := by
  induction l with
  | nil => simp [longestTrueRun]
  | cons b l ih =>
    have hl := leadRun_le_length (b :: l)
    simp only [longestTrueRun]
    simp only [List.length_cons] at *
    omega

theorem leadRun_of_all_true (l : List Bool) (h : ∀ b ∈ l, b = true) :
    leadRun l = l.length := by
  induction l with
  | nil => simp [leadRun]
  | cons b l ih =>
    have hb : b = true := h b (List.mem_cons_self b l)
    subst hb
    simp only [leadRun, List.length_cons]
    rw [ih fun x hx => h x (List.mem_cons_of_mem _ hx)]

theorem longestTrueRun_of_all_true (l : List Bool) (h : ∀ b ∈ l, b = true) :
    longestTrueRun l = l.length := by
  induction l with
  | nil => simp [longestTrueRun]
  | cons b l ih =>
    have hlead := leadRun_of_all_true (b :: l) h
    have hrest := ih fun x hx => h x (List.mem_cons_of_mem _ hx)
    have hle := longestTrueRun_le_length l
    simp only [longestTrueRun, hlead, hrest, List.length_cons] at *
    omega

theorem leadRun_lt_of_not_all (l : List Bool) (h : ¬ ∀ b ∈ l, b = true) :
    leadRun l < l.length := by
  induction l with
  | nil => exact absurd (by simp) h
  | cons b l ih =>
    cases b with
    | false => simp [leadRun]
    | true =>
      have hl : ¬ ∀ b ∈ l, b = true := by
        intro hall
        exact h fun x hx => by
          rcases List.mem_cons.mp hx with hx | hx
          · exact hx
          · exact hall x hx
      have := ih hl
      simp only [leadRun, List.length_cons]
      omega

theorem longestTrueRun_lt_of_not_all (l : List Bool)
    (h : ¬ ∀ b ∈ l, b = true) : longestTrueRun l < l.length := by
  induction l with
  | nil => exact absurd (by simp) h
  | cons b l ih =>
    cases b with
    | false =>
      have := longestTrueRun_le_length l
      simp only [longestTrueRun, leadRun, List.length_cons]
      omega
    | true =>
      have hl : ¬ ∀ b ∈ l, b = true := by
        intro hall
        exact h fun x hx => by
          rcases List.mem_cons.mp hx with hx | hx
          · exact hx
          · exact hall x hx
      have h1 := ih hl
      have h2 := leadRun_lt_of_not_all l hl
      simp only [longestTrueRun, leadRun, List.length_cons]
      omega

theorem longestTrueRun_of_all_false (l : List Bool)
    (h : ∀ b ∈ l, b = false) : longestTrueRun l = 0 := by
  induction l with
  | nil => simp [longestTrueRun]
  | cons b l ih =>
    have hb : b = false := h b (List.mem_cons_self b l)
    subst hb
    have hrest := ih fun x hx => h x (List.mem_cons_of_mem _ hx)
    simp [longestTrueRun, leadRun, hrest]

theorem foldl_count_eq (p : Meal → Bool) (l : List Meal) : ∀ n : Nat,
    l.foldl (fun total m => if p m then total + 1 else total) n = n + l.countP p := by
  induction l with
  | nil => intro n; simp
  | cons a l ih =>
    intro n
    cases hpa : p a <;> simp [List.countP_cons, hpa, ih] <;> omega

theorem onDietCount_eq (l : List Meal) :
    onDietCount l = l.countP fun m => m.on_diet :=
  (foldl_count_eq (fun m => m.on_diet) l 0).trans (Nat.zero_add _)

theorem offDietCount_eq (l : List Meal) :
    offDietCount l = l.countP fun m => !m.on_diet :=
  (foldl_count_eq (fun m => !m.on_diet) l 0).trans (Nat.zero_add _)

/-- C1: for every meal list as produced by List, the metrics operation
returns `recorded_meals` equal to the list length, `on_diet_meals` equal
to the number of meals with `on_diet` true, `off_diet_meals` equal to
the number with `on_diet` false, and `best_sequence` equal to the length
of the longest run of consecutive meals in that order that are all
`on_diet` true (the single linear pass with a running counter that
increments on true, resets on false, and a best-so-far maximum computes
exactly that); for the empty list all four metrics are zero. -/
theorem C1_metrics_correct (meals : List Meal) :
    computeMetrics meals =
      { recorded_meals := meals.length
        on_diet_meals := meals.countP fun m => m.on_diet
        off_diet_meals := meals.countP fun m => !m.on_diet
        best_sequence := longestTrueRun (meals.map fun m => m.on_diet) } ∧
    computeMetrics [] =
      { recorded_meals := 0, on_diet_meals := 0, off_diet_meals := 0,
        best_sequence := 0 } := by
  constructor
  · simp only [computeMetrics, Metrics.mk.injEq]
    refine ⟨trivial, onDietCount_eq meals, offDietCount_eq meals, ?_⟩
    rw [← bestSequence_eq_longestTrueRun]
    unfold bestSequence
    rw [List.foldl_map]
  · rfl

/-- C3: for every sequence of `on_diet` booleans given to the metrics
streak scan, `best_sequence` is at most the number of meals, with
equality exactly when every meal is on diet; an all-off-diet list yields
zero and an all-on-diet list yields the full length. -/
theorem C3_best_sequence_bounds (l : List Bool) :
    bestSequence l ≤ l.length ∧
    (bestSequence l = l.length ↔ ∀ b ∈ l, b = true) ∧
    ((∀ b ∈ l, b = false) → bestSequence l = 0) ∧
    ((∀ b ∈ l, b = true) → bestSequence l = l.length) := by
  rw [bestSequence_eq_longestTrueRun]
  refine ⟨longestTrueRun_le_length l,
    ⟨?_, longestTrueRun_of_all_true l⟩,
    longestTrueRun_of_all_false l,
    longestTrueRun_of_all_true l⟩
  intro h
  by_contra hna
  have := longestTrueRun_lt_of_not_all l hna
  omega

/-- Witness for C3 at concrete inputs: the spec's own examples, via the
theorem. -/
theorem C3_best_sequence_bounds_witness :
    bestSequence [false, false] = 0 ∧
    bestSequence [true, true, true] = 3 :=
  ⟨(C3_best_sequence_bounds [false, false]).2.2.1 (by decide),
   (C3_best_sequence_bounds [true, true, true]).2.2.2 (by decide)⟩

/-- C2 (code bug): List sorts the stored `String(dateTime)` text
lexicographically, which is not `occurred_at` order, because
`Date.prototype.toString` puts the weekday name first: the meal of
Thursday 2023-06-15 renders as `Thu Jun 15 2023 ...` and sorts above
the later meal of Monday 2024-01-01 (`Mon Jan 01 2024 ...`), so the
list is not most-recent-first and the metrics handler consumes that
wrong order; evaluated here on the embedded handlers at that failing
store. -/
theorem C2_lexicographic_not_chronological :
    dateTimeText 19523 =
      "Thu Jun 15 2023 00:00:00 GMT+0000 (Coordinated Universal Time)" ∧
    dateTimeText 19723 =
      "Mon Jan 01 2024 00:00:00 GMT+0000 (Coordinated Universal Time)" ∧
    (19523 : Nat) < 19723 ∧
    mealA.date_time = dateTimeText 19523 ∧
    mealJan2024.date_time = dateTimeText 19723 ∧
    listMeals [mealJan2024, mealA] 7 = [mealA, mealJan2024] ∧
    metricsHandler [mealJan2024, mealA] 7 =
      computeMetrics [mealA, mealJan2024] := by
  refine ⟨by decide, by decide, by decide, rfl, rfl, ?_, ?_⟩
  · decide
  · decide

theorem applyUpdate_id (m : Meal) (b : UpdateBody) :
    (applyUpdate m b).id = m.id := rfl

theorem applyUpdate_user_id (m : Meal) (b : UpdateBody) :
    (applyUpdate m b).user_id = m.user_id := rfl

theorem applyUpdate_created_at (m : Meal) (b : UpdateBody) :
    (applyUpdate m b).created_at = m.created_at := rfl

/-- C4 counterexample: the claim covers every subset of the update
fields, the empty one included, but a body with all four fields absent
makes knex strip every `undefined` value and throw
`Empty .update() call detected!`: the request errors instead of
succeeding with all fields retained. -/
theorem C4_counterexample :
    updateMeal [mealA] 7 1 rawEmptyBody = (.error .storeFailure, [mealA]) ∧
    (updateMeal [mealA] 7 1 rawEmptyBody).1 ≠ .ok () :=
  ⟨rfl, fun h => nomatch h⟩

/-- C4 (amended): for every existing meal owned by the caller, Update
with any non-empty subset of the optional fields succeeds, rewrites
exactly the matching row through the knex update object, replaces
exactly the supplied fields (a supplied `dateTime` is stored as its
`String(dateTime)` text), keeps every omitted field at its prior value,
never touches `id`, `owner_id` or `created_at`, and leaves every other
row unchanged; in particular a body carrying only `onDiet` leaves
`name`, `description` and `date_time` unchanged. The empty subset
instead errors on the knex `Empty .update() call detected!` check with
the store unchanged. -/
theorem C4_update_partial_fields (s : Store) (uid id : Nat)
    (raw : RawUpdateBody) (b : UpdateBody) (m0 : Meal)
    (hfound : findMeal s uid id = some m0)
    (hparse : parseUpdateBody raw = .ok b)
    (hne : ¬(b.name = none ∧ b.description = none ∧ b.dateTime = none ∧
      b.onDiet = none)) :
    (updateMeal s uid id raw).1 = .ok () ∧
    (updateMeal s uid id raw).2 =
      (s.map fun m =>
        if m.id == id && m.user_id == uid then applyUpdate m b else m) ∧
    (∀ m ∈ s, ¬(m.id = id ∧ m.user_id = uid) →
      (if m.id == id && m.user_id == uid then applyUpdate m b else m) = m) ∧
    (∀ m : Meal,
      (applyUpdate m b).id = m.id ∧
      (applyUpdate m b).user_id = m.user_id ∧
      (applyUpdate m b).created_at = m.created_at ∧
      (b.name = none → (applyUpdate m b).name = m.name) ∧
      (∀ v, b.name = some v → (applyUpdate m b).name = v) ∧
      (b.description = none → (applyUpdate m b).description = m.description) ∧
      (∀ v, b.description = some v → (applyUpdate m b).description = some v) ∧
      (b.dateTime = none → (applyUpdate m b).date_time = m.date_time) ∧
      (∀ v, b.dateTime = some v →
        (applyUpdate m b).date_time = dateTimeText v) ∧
      (b.onDiet = none → (applyUpdate m b).on_diet = m.on_diet) ∧
      (∀ v, b.onDiet = some v → (applyUpdate m b).on_diet = v)) := by
  refine ⟨?_, ?_, ?_, ?_⟩
  · simp [updateMeal, hfound, hparse, hne]
  · simp [updateMeal, hfound, hparse, hne]
  · intro m _ hnot
    have hcond : (m.id == id && m.user_id == uid) = false := by
      by_cases hid : m.id = id
      · by_cases huid : m.user_id = uid
        · exact absurd ⟨hid, huid⟩ hnot
        · simp [huid]
      · simp [hid]
    simp [hcond]
  · intro m
    refine ⟨rfl, rfl, rfl, ?_, ?_, ?_, ?_, ?_, ?_, ?_, ?_⟩ <;>
      (simp only [applyUpdate]; intros; simp_all)

/-- Witness for C4: updating `mealA` with only `onDiet = false` keeps
`name`, `description` and `date_time`, via the theorem at that input. -/
theorem C4_update_partial_fields_witness :
    (updateMeal [mealA] 7 1 rawOnDietOnly).1 = .ok () ∧
    (applyUpdate mealA
      { name := none, description := none, dateTime := none,
        onDiet := some false }).name = mealA.name ∧
    (applyUpdate mealA
      { name := none, description := none, dateTime := none,
        onDiet := some false }).description = mealA.description ∧
    (applyUpdate mealA
      { name := none, description := none, dateTime := none,
        onDiet := some false }).date_time = mealA.date_time := by
  have h := C4_update_partial_fields [mealA] 7 1 rawOnDietOnly
    { name := none, description := none, dateTime := none,
      onDiet := some false } mealA rfl rfl (fun hc => nomatch hc.2.2.2)
  exact ⟨h.1, (h.2.2.2 mealA).2.2.2.1 rfl, (h.2.2.2 mealA).2.2.2.2.2.1 rfl,
    (h.2.2.2 mealA).2.2.2.2.2.2.2.1 rfl⟩

theorem findMeal_eq_none_iff (s : Store) (uid id : Nat) :
    findMeal s uid id = none ↔ ∀ m ∈ s, ¬(m.user_id = uid ∧ m.id = id) := by
  unfold findMeal
  rw [List.head?_eq_none_iff, List.filter_eq_nil_iff]
  simp

theorem getMeal_eq_none_iff (s : Store) (uid id : Nat) :
    getMeal s uid id = none ↔ ∀ m ∈ s, ¬(m.id = id ∧ m.user_id = uid) := by
  unfold getMeal
  rw [List.head?_eq_none_iff, List.filter_eq_nil_iff]
  simp

theorem notFound_of_no_match (s : Store) (uid id : Nat)
    (raw : RawUpdateBody) (h : ∀ m ∈ s, ¬(m.user_id = uid ∧ m.id = id)) :
    updateMeal s uid id raw = (.error .notFound, s) ∧
    deleteMeal s uid id = (.error .notFound, s) := by
  have hf : findMeal s uid id = none := (findMeal_eq_none_iff s uid id).mpr h
  exact ⟨by simp [updateMeal, hf], by simp [deleteMeal, hf]⟩

/-- C5: for every caller and id, if no meal with that id belongs to the
caller, the pre-check read misses and Update and Delete both return
NotFound with the store completely unchanged. -/
theorem C5_notfound_precheck (s : Store) (uid id : Nat)
    (raw : RawUpdateBody) (h : ∀ m ∈ s, ¬(m.user_id = uid ∧ m.id = id)) :
    updateMeal s uid id raw = (.error .notFound, s) ∧
    deleteMeal s uid id = (.error .notFound, s) :=
  notFound_of_no_match s uid id raw h

/-- Witness for C5: token 7 against the store holding only `mealB`
(owned by token 8), via the theorem at that input. -/
theorem C5_notfound_precheck_witness :
    updateMeal [mealB] 7 2 rawOnDietOnly = (.error .notFound, [mealB]) ∧
    deleteMeal [mealB] 7 2 = (.error .notFound, [mealB]) :=
  C5_notfound_precheck [mealB] 7 2 rawOnDietOnly (by decide)

/-- C6: a meal id whose rows all belong to someone else is observably
identical to an absent id: GetOne answers `none` (not an error) exactly
as on the store with that id erased, and Update and Delete answer
NotFound leaving the store unchanged, exactly as on the store with that
id erased. -/
theorem C6_foreign_indistinguishable (s : Store) (uid id : Nat)
    (raw : RawUpdateBody) (h : ∀ m ∈ s, m.id = id → m.user_id ≠ uid) :
    getMeal s uid id = none ∧
    getMeal (s.filter fun m => !(m.id == id)) uid id = none ∧
    updateMeal s uid id raw = (.error .notFound, s) ∧
    updateMeal (s.filter fun m => !(m.id == id)) uid id raw =
      (.error .notFound, s.filter fun m => !(m.id == id)) ∧
    deleteMeal s uid id = (.error .notFound, s) ∧
    deleteMeal (s.filter fun m => !(m.id == id)) uid id =
      (.error .notFound, s.filter fun m => !(m.id == id)) := by
  have h' : ∀ m ∈ s, ¬(m.user_id = uid ∧ m.id = id) := by
    intro m hm hcontra
    exact h m hm hcontra.2 hcontra.1
  have hsub : ∀ m ∈ (s.filter fun m => !(m.id == id)), ¬(m.user_id = uid ∧ m.id = id) := by
    intro m hm
    exact h' m (List.mem_of_mem_filter hm)
  have hg : getMeal s uid id = none :=
    (getMeal_eq_none_iff s uid id).mpr fun m hm hc => h m hm hc.1 hc.2
  have hg' : getMeal (s.filter fun m => !(m.id == id)) uid id = none :=
    (getMeal_eq_none_iff _ uid id).mpr fun m hm hc =>
      hsub m hm ⟨hc.2, hc.1⟩
  have h5 := notFound_of_no_match s uid id raw h'
  have h5' := notFound_of_no_match (s.filter fun m => !(m.id == id)) uid id raw hsub
  exact ⟨hg, hg', h5.1, h5'.1, h5.2, h5'.2⟩

/-- Witness for C6: token 7 probing id 2, which exists in the store but
belongs to token 8, via the theorem at that input. -/
theorem C6_foreign_indistinguishable_witness :
    getMeal [mealB] 7 2 = none ∧
    updateMeal [mealB] 7 2 rawOnDietOnly = (.error .notFound, [mealB]) ∧
    deleteMeal [mealB] 7 2 = (.error .notFound, [mealB]) :=
  have h := C6_foreign_indistinguishable [mealB] 7 2 rawOnDietOnly (by decide)
  ⟨h.1, h.2.2.1, h.2.2.2.2.1⟩

/-- C7 (code bug): on Create without an identity token, a token is
freshly minted (the next value of the uuid supply, hence distinct from
every token already in the store once the supply dominates them),
persisted as the new row's owner, and sent back through `reply.cookie`;
with a token present, that token is reused unchanged and no cookie is
set (no second mint). The communicated validity, however, is not the
claimed 7 days: the handler passes `maxAge` 1000*60*60*24*7 =
604800000, and `@fastify/cookie` counts `maxAge` in seconds, so the
cookie lasts about 19.2 years rather than the 7 days (604800 s) the
source's own comment intends. -/
theorem C7_token_mint (s : Store) (ctr now : Nat) (raw : RawCreateBody)
    (b : CreateBody) (u : Nat) (hparse : parseCreateBody raw = .ok b) :
    (createMeal s none ctr now raw).setCookie = some (ctr, cookieMaxAge) ∧
    cookieMaxAge = 604800000 ∧
    cookieMaxAge ≠ sevenDaysInSeconds ∧
    (createMeal s none ctr now raw).store =
      s ++ [{ id := ctr + 1, user_id := ctr, name := b.name,
              description := b.description,
              date_time := dateTimeText b.dateTime,
              on_diet := b.onDiet, created_at := now }] ∧
    ((∀ m ∈ s, m.user_id < ctr) → ∀ m ∈ s, m.user_id ≠ ctr) ∧
    (createMeal s (some u) ctr now raw).setCookie = none ∧
    (createMeal s (some u) ctr now raw).store =
      s ++ [{ id := ctr, user_id := u, name := b.name,
              description := b.description,
              date_time := dateTimeText b.dateTime,
              on_diet := b.onDiet, created_at := now }] := by
  refine ⟨by simp [createMeal, hparse], rfl, by decide,
    by simp [createMeal, hparse], ?_,
    by simp [createMeal, hparse], by simp [createMeal, hparse]⟩
  intro hlt m hm
  have := hlt m hm
  omega

/-- Witness for C7: creating with no cookie mints token 0 and sets the
(overlong) cookie; creating with token 7 sets no cookie, via the
theorem. -/
theorem C7_token_mint_witness :
    (createMeal [] none 0 0 rawCreateOk).setCookie = some (0, cookieMaxAge) ∧
    (createMeal [] (some 7) 0 0 rawCreateOk).setCookie = none :=
  have h := C7_token_mint [] 0 0 rawCreateOk
    { name := "rice", description := none, dateTime := 5, onDiet := true } 7 rfl
  ⟨h.1, h.2.2.2.2.2.1⟩

theorem parseCreateBody_eq_error (raw : RawCreateBody)
    (h : raw.name = none ∨ raw.onDiet = none ∨ raw.dateTime = none ∨
      ∃ d, raw.dateTime = some d ∧ parseDate d = none) :
    parseCreateBody raw = .error .validationError := by
  rcases raw with ⟨n, ds, dt, od⟩
  dsimp only at h
  rcases n with _ | n
  · rfl
  rcases dt with _ | d
  · rfl
  rcases od with _ | od
  · rfl
  have hpd : parseDate d = none := by
    rcases h with h | h | h | ⟨d1, hd, hpd⟩
    · cases h
    · cases h
    · cases h
    · cases hd
      exact hpd
  unfold parseCreateBody
  dsimp only
  rw [hpd]

/-- C8 counterexample: the claim requires Create to reject an empty
`name`, but `z.string ()` accepts the empty string, so Create with
`name` empty succeeds and persists a record. -/
theorem C8_counterexample :
    (createMeal [] none 0 0 rawCreateEmptyName).response = .ok () ∧
    (createMeal [] none 0 0 rawCreateEmptyName).store =
      [{ id := 1, user_id := 0, name := "", description := none,
         date_time := dateTimeText 5, on_diet := true, created_at := 0 }] :=
  ⟨rfl, rfl⟩

/-- C8 (amended): for every Create request, if `name` is missing, or
`on_diet` is missing, or `occurred_at` is missing or does not parse as a
valid date-time, then Create fails with ValidationError before the
insert: the store is unchanged, no cookie is set, no uuid is consumed.
An empty `name` is accepted. -/
theorem C8_create_validation (s : Store) (cookie : Option Nat)
    (ctr now : Nat) (raw : RawCreateBody)
    (h : raw.name = none ∨ raw.onDiet = none ∨ raw.dateTime = none ∨
      ∃ d, raw.dateTime = some d ∧ parseDate d = none) :
    createMeal s cookie ctr now raw =
      { response := .error .validationError, store := s, setCookie := none,
        nextUuid := ctr } := by
  have hp := parseCreateBody_eq_error raw h
  simp [createMeal, hp]

/-- Witness for C8 (amended): a body with `name` absent is rejected and
nothing is persisted, via the theorem at that input. -/
theorem C8_create_validation_witness :
    createMeal [] none 0 0 rawCreateNoName =
      { response := .error .validationError, store := [], setCookie := none,
        nextUuid := 0 } :=
  C8_create_validation [] none 0 0 rawCreateNoName (Or.inl rfl)

/-- C9: in Update the existence/ownership pre-check runs before the
body is validated: whenever the pre-check read misses, the result is
NotFound whatever the body contains, and a ValidationError can only
arise when the pre-check found a meal of the caller. -/
theorem C9_precheck_before_body_validation (s : Store) (uid id : Nat)
    (raw : RawUpdateBody) :
    (findMeal s uid id = none → (updateMeal s uid id raw).1 = .error .notFound) ∧
    ((updateMeal s uid id raw).1 = .error .validationError →
      ∃ m, findMeal s uid id = some m) := by
  constructor
  · intro h
    simp [updateMeal, h]
  · intro h
    cases hf : findMeal s uid id with
    | some m => exact ⟨m, rfl⟩
    | none => simp [updateMeal, hf] at h

/-- Witness for C9: an empty store and a body whose `dateTime` does not
parse still yield NotFound, via the theorem at that input. -/
theorem C9_precheck_before_body_validation_witness :
    (updateMeal [] 7 1 rawBadDate).1 = .error .notFound :=
  (C9_precheck_before_body_validation [] 7 1 rawBadDate).1 rfl

theorem filter_map_eq_filter (p : Meal → Bool) (f : Meal → Meal)
    (hfix : ∀ m, p m = true → f m = m)
    (hpres : ∀ m, p (f m) = p m) (s : List Meal) :
    (s.map f).filter p = s.filter p := by
  induction s with
  | nil => rfl
  | cons a s ih =>
    simp only [List.map_cons, List.filter_cons, hpres]
    rw [ih]
    cases hpa : p a with
    | true => simp [hfix a hpa]
    | false => simp

theorem filter_filter_eq_filter (p q : Meal → Bool)
    (himp : ∀ m, p m = true → q m = true) (s : List Meal) :
    ((s.filter q).filter p) = s.filter p := by
  induction s with
  | nil => rfl
  | cons a s ih =>
    cases hqa : q a with
    | true => simp [List.filter_cons, hqa, ih]
    | false =>
      have hpa : p a = false := by
        cases hpc : p a with
        | false => rfl
        | true => rw [himp a hpc] at hqa; cases hqa
      simp [List.filter_cons, hqa, hpa, ih]

theorem filter_foreign_map_update (s : List Meal) (uid id : Nat)
    (b : UpdateBody) :
    ((s.map fun m =>
        if m.id == id && m.user_id == uid then applyUpdate m b else m).filter
      fun m => !(m.user_id == uid)) =
      s.filter fun m => !(m.user_id == uid) := by
  refine filter_map_eq_filter _ _ ?_ ?_ s
  · intro m hm
    have huid : (m.user_id == uid) = false := by
      cases hc : m.user_id == uid
      · rfl
      · rw [hc] at hm
        cases hm
    simp [huid]
  · intro m
    have huser : ((if m.id == id && m.user_id == uid then applyUpdate m b
        else m).user_id) = m.user_id := by
      split
      · exact applyUpdate_user_id m b
      · rfl
    rw [huser]

theorem filter_foreign_filter_delete (s : List Meal) (uid id : Nat) :
    ((s.filter fun m => !(m.id == id && m.user_id == uid)).filter
      fun m => !(m.user_id == uid)) =
      s.filter fun m => !(m.user_id == uid) := by
  refine filter_filter_eq_filter _ _ ?_ s
  intro m hm
  have huid : (m.user_id == uid) = false := by
    cases hc : m.user_id == uid
    · rfl
    · rw [hc] at hm
      cases hm
  simp [huid]

theorem filter_foreign_updateMeal (s : Store) (uid id : Nat)
    (raw : RawUpdateBody) :
    ((updateMeal s uid id raw).2.filter fun m => !(m.user_id == uid)) =
      s.filter fun m => !(m.user_id == uid) := by
  cases hf : findMeal s uid id with
  | none => simp [updateMeal, hf]
  | some m0 =>
    cases hp : parseUpdateBody raw with
    | error e => simp [updateMeal, hf, hp]
    | ok b =>
      simp only [updateMeal, hf, hp]
      split
      · rfl
      · exact filter_foreign_map_update s uid id b

theorem filter_foreign_deleteMeal (s : Store) (uid id : Nat) :
    ((deleteMeal s uid id).2.filter fun m => !(m.user_id == uid)) =
      s.filter fun m => !(m.user_id == uid) := by
  cases hf : findMeal s uid id with
  | none => simp [deleteMeal, hf]
  | some m0 =>
    simp only [deleteMeal, hf]
    exact filter_foreign_filter_delete s uid id

theorem filter_foreign_createMeal (s : Store) (uid ctr now : Nat)
    (raw : RawCreateBody) :
    ((createMeal s (some uid) ctr now raw).store.filter
      fun m => !(m.user_id == uid)) =
      s.filter fun m => !(m.user_id == uid) := by
  cases hp : parseCreateBody raw with
  | error e => simp [createMeal, hp]
  | ok b => simp [createMeal, hp, List.filter_append]

/-- C10: every mutating store operation is scoped by the caller's
identity token: across every sequence of requests issued with one
token, the rows whose `user_id` differs from that token are exactly the
rows that were already there — none inserted, modified or deleted. -/
theorem C10_owner_scoping (uid : Nat) (st : SysState) (ops : List Op) :
    ((applyOps uid st ops).store.filter fun m => !(m.user_id == uid)) =
      st.store.filter fun m => !(m.user_id == uid) := by
  induction ops generalizing st with
  | nil => rfl
  | cons op ops ih =>
    have hstep : ((applyOp uid st op).store.filter fun m => !(m.user_id == uid)) =
        st.store.filter fun m => !(m.user_id == uid) := by
      cases op with
      | create now raw => exact filter_foreign_createMeal st.store uid st.ctr now raw
      | update id raw => exact filter_foreign_updateMeal st.store uid id raw
      | delete id => exact filter_foreign_deleteMeal st.store uid id
      | getOne id => rfl
      | list => rfl
      | metrics => rfl
    calc ((applyOps uid st (op :: ops)).store.filter fun m => !(m.user_id == uid))
        = ((applyOps uid (applyOp uid st op) ops).store.filter
            fun m => !(m.user_id == uid)) := rfl
      _ = ((applyOp uid st op).store.filter fun m => !(m.user_id == uid)) :=
            ih (applyOp uid st op)
      _ = st.store.filter fun m => !(m.user_id == uid) := hstep
